import Mathlib

/-!
Verification of the PCS cluster-resource orchestration layer of
`cockpit-file-sharing` (`src/file-sharing/src/tabs/iSCSI/types/ConfigurationManager.ts`,
class `PCSResourceManager`).

The TypeScript source is embedded shallowly:

* JavaScript strings are `String`, arrays are `List`.
* The remote `server.execute` capability is an oracle parameter: each operation
  receives the outcome of the command(s) it would run (`Except ProcessError _`).
* The mutable field `currentResources : PCSResource[] | undefined` becomes an
  explicit `ManagerState` record threaded through the operations; every
  operation also reports the list of commands it issued, so that claims about
  "no remote command is issued" are statable.
* A JavaScript exception that escapes the neverthrow `Result` channel (for
  example the non-null assertion `this.currentResources!` evaluated while the
  cache is `undefined`, which makes `[...undefined]` / `undefined.filter` throw
  a `TypeError`) is modelled by the dedicated outcome `JSOutcome.crash`,
  distinct from the typed error channel `JSOutcome.err`.
* JavaScript peculiarities are modelled explicitly where the source relies on
  them: `String.prototype.replace` with a string pattern replaces only the
  first occurrence (`replaceFirstColon`), `if (x)` tests truthiness
  (`truthy`), `new Set(...)` iterates in first-insertion order (`dedupFirst`),
  `Map` iterates in insertion order (`bumpCount` association lists, last `set`
  wins on lookup: `jsMapGet`), and `Array.prototype.sort` is stable
  (`stableSortBy`, a left-fold insertion sort that places an element after all
  already-placed elements of equal rank).
-/

/-- Error type of the houston common library as used by the manager: all typed
failures are `ProcessError` values carrying a human-readable message. -/
structure ProcessError where
  message : String
deriving DecidableEq, Repr

/-- Modelled from the spec: the closed enumeration `PCSResourceType` lives in
`cluster/PCSResource.ts`, which is not among the available sources.  The spec
(§3) names the variants TARGET, PORTBLOCK_ON, PORTBLOCK_OFF and VIP; those are
the ones the available code refers to. -/
inductive PCSResourceType where
  | TARGET
  | PORTBLOCK_ON
  | PORTBLOCK_OFF
  | VIP
deriving DecidableEq, Repr

/-- Modelled from the spec: the enumeration order used by
`Object.values(PCSResourceType)` in `getResourceTypeOfPCSResource`.  The true
order is in the missing `cluster/PCSResource.ts`; under the spec's invariant
(distinct agent names except the shared portblock agent) the classification
result does not depend on it. -/
def PCSResourceType.values : List PCSResourceType :=
  [.TARGET, .PORTBLOCK_ON, .PORTBLOCK_OFF, .VIP]

/-- Modelled from the spec: one row of the static catalog
`PCSResourceTypeInfo` (§3): the cluster-manager agent identifier and the
integer rank giving the canonical position inside a group. -/
structure PCSResourceTypeInfoEntry where
  internalTypeName : String
  orderInGroup : Int
deriving DecidableEq, Repr

/-- Modelled from the spec: the catalog `PCSResourceTypeInfo` itself
(`cluster/PCSResource.ts`, not among the available sources) — a total table
from resource type to its entry.  It is a parameter of every operation that
reads it. -/
structure Catalog where
  info : PCSResourceType → PCSResourceTypeInfoEntry

/-- `PCSResourceGroup` from `cluster/PCSResourceGroup.ts`: a thin handle
holding only the group name. -/
structure PCSResourceGroup where
  name : String
deriving DecidableEq, Repr

/-- `PCSResource`: name, classified type, optional back-reference to the
group.  `new PCSResource(name, type)` leaves the group `undefined`. -/
structure PCSResource where
  name : String
  resourceType : PCSResourceType
  resourceGroup : Option PCSResourceGroup
deriving DecidableEq, Repr

/-- JSON shape `{id, name, value}` of one nvpair of the PCS configuration. -/
structure PCSNvPair where
  id : String
  name : String
  value : String
deriving DecidableEq, Repr

/-- JSON shape of one `instance_attributes` block. -/
structure PCSInstanceAttributes where
  nvpairs : List PCSNvPair
deriving DecidableEq, Repr

/-- JSON shape of `agent_name`. -/
structure PCSAgentName where
  type : String
deriving DecidableEq, Repr

/-- JSON shape of one primitive of `pcs resource config --output-format json`
(type `PCSResourceConfigJson` in the source). -/
structure PCSResourceConfigJson where
  id : String
  agent_name : PCSAgentName
  instance_attributes : List PCSInstanceAttributes
deriving DecidableEq, Repr

/-- JSON shape of one group entry. -/
structure PCSGroupJson where
  id : String
  member_ids : List String
deriving DecidableEq, Repr

/-- JSON shape of the whole configuration (type `PCSConfigJson` in the
source).  The source guards with `?? []`, so an absent array is the empty
list here. -/
structure PCSConfigJson where
  primitives : List PCSResourceConfigJson
  groups : List PCSGroupJson
deriving DecidableEq, Repr

/-- Outcome of an operation: the typed success/error channel of neverthrow's
`ResultAsync`, plus `crash` for a JavaScript exception that escapes that
channel (an untyped runtime exception such as a `TypeError` from spreading or
filtering `undefined`). -/
inductive JSOutcome (α : Type) where
  | ok (a : α)
  | err (e : ProcessError)
  | crash
deriving DecidableEq, Repr

/-- A command handed to `server.execute`: either a `BashCommand` (one shell
line) or a `Command` (literal argv vector). -/
inductive IssuedCommand where
  | bash (line : String)
  | argv (args : List String)
deriving DecidableEq, Repr

/-- The mutable state of a `PCSResourceManager` instance: the snapshot cache
`currentResources`, `undefined` (`none`) until first populated. -/
structure ManagerState where
  currentResources : Option (List PCSResource)
deriving DecidableEq, Repr

/-- Result of running one operation: its outcome, the state afterwards, and
the commands it handed to `server.execute`, in order. -/
structure OpResult (α : Type) where
  outcome : JSOutcome α
  state : ManagerState
  commands : List IssuedCommand
deriving DecidableEq, Repr

/-- JavaScript truthiness of a `string | undefined` value: `undefined` and
the empty string are falsy. -/
def truthy : Option String → Bool
  | none => false
  | some s => !(s == "")

/-- `/[\r\n]/.test(value)` — does the string contain a carriage return or a
line feed? -/
def hasNewline (s : String) : Bool :=
  s.data.any (fun c => c == '\r' || c == '\n')

/-- `String.prototype.replace(':', '_')` on the underlying character list:
with a *string* pattern, JavaScript replaces only the first occurrence. -/
def replaceFirstColonAux : List Char → List Char
  | [] => []
  | c :: cs => if c == ':' then '_' :: cs else c :: replaceFirstColonAux cs

/-- `name.replace(':', '_')` as used by `createResource`. -/
def replaceFirstColon (s : String) : String :=
  ⟨replaceFirstColonAux s.data⟩

/-- `haystack.includes(needle)` — substring test, on character lists. -/
def strIncludes (hay needle : String) : Bool :=
  go hay.data
where
  go : List Char → Bool
    | [] => needle.data.isEmpty
    | c :: cs => needle.data.isPrefixOf (c :: cs) || go cs

/-- `arr.join(sep)` of JavaScript: empty string for the empty array, no
trailing separator. -/
def joinSep (sep : String) : List String → String
  | [] => ""
  | [x] => x
  | x :: y :: xs => x ++ sep ++ joinSep sep (y :: xs)

/-- Substring as a proposition: `needle` occurs contiguously in `hay`. -/
def StrInfix (needle hay : String) : Prop :=
  ∃ p q, hay = p ++ needle ++ q

/-- The member filter used at `ConfigurationManager.ts:221`, `:294` and
`:342`: resources whose `resourceGroup?.name` equals the group's name
(`undefined === name` is false, so ungrouped resources are dropped). -/
def groupMembers (resources : List PCSResource) (groupName : String) : List PCSResource :=
  resources.filter (fun r =>
    match r.resourceGroup with
    | some g => g.name == groupName
    | none => false)

/-- First action value of the nested nvpair scan in
`getResourceTypeOfPCSResource`: the two `for` loops return on the first
nvpair named `action`, scanning attribute blocks in order. -/
def findActionValue (attrs : List PCSInstanceAttributes) : Option String :=
  ((attrs.map (·.nvpairs)).flatten.find? (fun p => p.name == "action")).map (·.value)

/-- The `for (const type of Object.values(PCSResourceType))` loop of
`getResourceTypeOfPCSResource` (`ConfigurationManager.ts:489-509`): first
type whose agent name matches; a `portblock` match consults the `action`
attribute and — when no `action` nvpair exists — falls through to the next
enumeration entry. -/
def classifyAux (cat : Catalog) (resource : PCSResourceConfigJson) :
    List PCSResourceType → Option PCSResourceType
  | [] => none
  | t :: rest =>
    if (cat.info t).internalTypeName == resource.agent_name.type then
      if (cat.info t).internalTypeName == "portblock" then
        match findActionValue resource.instance_attributes with
        | some v => some (if v == "block" then .PORTBLOCK_ON else .PORTBLOCK_OFF)
        | none => classifyAux cat resource rest
      else
        some t
    else
      classifyAux cat resource rest

/-- `PCSResourceManager.getResourceTypeOfPCSResource`. -/
def getResourceTypeOfPCSResource (cat : Catalog) (resource : PCSResourceConfigJson) :
    Option PCSResourceType :=
  classifyAux cat resource PCSResourceType.values

/-- The resource-building `map`/`filter` of `fetchResources`
(`ConfigurationManager.ts:467-481`): classify each primitive, attach its
group, and drop unclassifiable primitives and ungrouped TARGETs. -/
def buildResources (cat : Catalog) (cfg : PCSConfigJson) : List PCSResource :=
  cfg.primitives.filterMap (fun p =>
    match getResourceTypeOfPCSResource cat p with
    | none => none
    | some ty =>
      let group := cfg.groups.find? (fun g => g.member_ids.contains p.id)
      let groupObject := group.map (fun g => PCSResourceGroup.mk g.id)
      if ty ≠ PCSResourceType.TARGET ∨ groupObject.isSome then
        some ⟨p.id, ty, groupObject⟩
      else
        none)

/-- Oracle for the bulk configuration query issued by `fetchResources`:
the outcome of `pcs resource config --output-format json` followed by
`safeJsonParse`. -/
structure FetchEnv where
  queryResult : Except ProcessError PCSConfigJson

/-- `PCSResourceManager.fetchResources` (`ConfigurationManager.ts:453-486`):
serve the cache when present; otherwise issue the bulk query, build the
resource list, and populate the cache. -/
def fetchResources (cat : Catalog) (env : FetchEnv) (st : ManagerState) :
    OpResult (List PCSResource) :=
  match st.currentResources with
  | some l => ⟨.ok l, st, []⟩
  | none =>
    let cmd := IssuedCommand.argv ["pcs", "resource", "config", "--output-format", "json"]
    match env.queryResult with
    | .error e =>
      ⟨.err ⟨"Unable to get current PCS configuration: " ++ e.message⟩, st, [cmd]⟩
    | .ok cfg =>
      let resources := buildResources cat cfg
      ⟨.ok resources, ⟨some resources⟩, [cmd]⟩

/-- `PCSResourceManager.createResource` (`ConfigurationManager.ts:130-145`).
`exec` is the oracle outcome of `server.execute(creationCommand)`.  The
single-line validation runs before the command; on command success the cache
is extended through the non-null assertion `this.currentResources!`, which
crashes when the cache was never populated. -/
def createResource (st : ManagerState) (name creationArguments : String)
    (ty : PCSResourceType) (exec : Except ProcessError Unit) : OpResult PCSResource :=
  let resourceName := replaceFirstColon name
  let cmd := IssuedCommand.bash
    ("pcs resource create '" ++ resourceName ++ "' " ++ creationArguments)
  if hasNewline creationArguments then
    ⟨.err ⟨"PCS creation arguments must be a single line."⟩, st, []⟩
  else
    match exec with
    | .error e => ⟨.err e, st, [cmd]⟩
    | .ok _ =>
      match st.currentResources with
      | none => ⟨.crash, st, [cmd]⟩
      | some l =>
        let resource : PCSResource := ⟨resourceName, ty, none⟩
        ⟨.ok resource, ⟨some (l ++ [resource])⟩, [cmd]⟩

/-- `PCSResourceManager.deleteResource` (`ConfigurationManager.ts:147-156`).
On command success the cache is filtered through `this.currentResources!`,
which crashes when the cache was never populated. -/
def deleteResource (st : ManagerState) (name : String)
    (exec : Except ProcessError Unit) : OpResult Unit :=
  let cmd := IssuedCommand.argv ["pcs", "resource", "delete", name]
  match exec with
  | .error e => ⟨.err e, st, [cmd]⟩
  | .ok _ =>
    match st.currentResources with
    | none => ⟨.crash, st, [cmd]⟩
    | some l =>
      ⟨.ok (), ⟨some (l.filter (fun r => !(r.name == name)))⟩, [cmd]⟩

/-- `PCSResourceManager.deleteResourceGroup` (`ConfigurationManager.ts:165-173`).
Filters out every cached resource whose `resourceGroup?.name` equals the
group name; `this.currentResources!` crashes on an absent cache. -/
def deleteResourceGroup (st : ManagerState) (groupName : String)
    (exec : Except ProcessError Unit) : OpResult Unit :=
  let cmd := IssuedCommand.argv ["pcs", "resource", "delete", groupName]
  match exec with
  | .error e => ⟨.err e, st, [cmd]⟩
  | .ok _ =>
    match st.currentResources with
    | none => ⟨.crash, st, [cmd]⟩
    | some l =>
      ⟨.ok (), ⟨some (l.filter (fun r =>
        !(match r.resourceGroup with
          | some g => g.name == groupName
          | none => false)))⟩, [cmd]⟩

/-- Stable ascending insertion: the new element goes after every
already-placed element of equal rank. -/
def insertOrdered (rank : PCSResource → Int) (x : PCSResource) :
    List PCSResource → List PCSResource
  | [] => [x]
  | y :: ys => if rank x < rank y then x :: y :: ys else y :: insertOrdered rank x ys

/-- Model of the stable JavaScript `Array.prototype.sort` with the numeric
comparator `(r1, r2) => rank r1 - rank r2` (`ConfigurationManager.ts:343`):
a left fold of stable insertions. -/
def stableSortBy (rank : PCSResource → Int) (l : List PCSResource) : List PCSResource :=
  l.foldl (fun acc x => insertOrdered rank x acc) []

/-- `PCSResourceManager.addResourceToGroup` (`ConfigurationManager.ts:334-361`).
Computes the insertion point from the (fetched or cached) snapshot, then
assigns `resource.resourceGroup = resourceGroup` *before* handing the
group-add command to `server.execute`.  The assignment mutates the resource
object itself; since resource names are unique and callers pass objects
obtained from the snapshot, it is modelled as a by-name update of the cached
list. -/
def addResourceToGroup (cat : Catalog) (fenv : FetchEnv)
    (exec : Except ProcessError Unit) (st : ManagerState)
    (resource : PCSResource) (groupName : String) : OpResult Unit :=
  let fr := fetchResources cat fenv st
  match fr.outcome with
  | .err e => ⟨.err e, fr.state, fr.commands⟩
  | .crash => ⟨.crash, fr.state, fr.commands⟩
  | .ok resources =>
    let currentResourceIndex := (cat.info resource.resourceType).orderInGroup
    let nextResource :=
      (stableSortBy (fun r => (cat.info r.resourceType).orderInGroup)
          (groupMembers resources groupName)).find?
        (fun groupResource =>
          currentResourceIndex ≤ (cat.info groupResource.resourceType).orderInGroup)
    let positionArgument :=
      match nextResource with
      | some nr => ["--before", nr.name]
      | none => []
    let st2 : ManagerState :=
      ⟨fr.state.currentResources.map (fun l => l.map (fun r =>
        if r.name == resource.name then { r with resourceGroup := some ⟨groupName⟩ } else r))⟩
    let cmd := IssuedCommand.argv
      (["pcs", "resource", "group", "add", groupName] ++ positionArgument ++ [resource.name])
    match exec with
    | .error e => ⟨.err e, st2, fr.commands ++ [cmd]⟩
    | .ok _ => ⟨.ok (), st2, fr.commands ++ [cmd]⟩

/-- One entry of the `perMember` array of `getGroupActiveNode`
(`ConfigurationManager.ts:228`): the member's id and the node its location
query reported (or `undefined`). -/
structure PerMember where
  id : String
  node : Option String
deriving DecidableEq, Repr

/-- The nodes that reported truthily:
`perMember.map(x => x.node).filter(Boolean)` (`ConfigurationManager.ts:238`). -/
def truthyNodes (pm : List PerMember) : List String :=
  (pm.map (·.node)).filterMap (fun o => if truthy o then o else none)

/-- `Array.from(new Set(...))`: deduplication keeping the first occurrence of
each element, in insertion order. -/
def dedupFirst (l : List String) : List String :=
  l.foldl (fun acc n => if acc.contains n then acc else acc ++ [n]) []

/-- `nodeCounts.set(node, (nodeCounts.get(node) ?? 0) + 1)` on an
insertion-ordered association list: bump the existing entry or append a new
one. -/
def bumpCount : List (String × Nat) → String → List (String × Nat)
  | [], n => [(n, 1)]
  | (k, c) :: rest, n =>
    if k == n then (k, c + 1) :: rest else (k, c) :: bumpCount rest n

/-- One step of the `nodeCounts` tally: `if (node) nodeCounts.set(node,
(nodeCounts.get(node) ?? 0) + 1)` for one member's reported node. -/
def countStep (acc : List (String × Nat)) : Option String → List (String × Nat)
  | some n => if n == "" then acc else bumpCount acc n
  | none => acc

/-- The `nodeCounts` map of `getGroupActiveNode`
(`ConfigurationManager.ts:227-233`): tally of each truthily reported node,
in first-report order (`if (node) nodeCounts.set(...)`). -/
def nodeCounts (pm : List PerMember) : List (String × Nat) :=
  pm.foldl (fun acc x => countStep acc x.node) []

/-- `perMember.find(x => x.id.includes("_VIP_") && x.node)`
(`ConfigurationManager.ts:243`). -/
def vipFind (pm : List PerMember) : Option PerMember :=
  pm.find? (fun x => strIncludes x.id "_VIP_" && truthy x.node)

/-- `perMember.find(x => x.id.includes("_TARGET_") && x.node)`
(`ConfigurationManager.ts:247`). -/
def tgtFind (pm : List PerMember) : Option PerMember :=
  pm.find? (fun x => strIncludes x.id "_TARGET_" && truthy x.node)

/-- The majority-vote loop of `getGroupActiveNode`
(`ConfigurationManager.ts:252-259`): scan the counts in insertion order,
keeping the first entry with a strictly higher count than any seen so far
(`bestNode = ""`, `bestCount = -1` initially). -/
def majorityNode (counts : List (String × Nat)) : String :=
  (counts.foldl
    (fun best p => if (p.2 : Int) > best.2 then (p.1, (p.2 : Int)) else best)
    ("", -1)).1

/-- The node-choice cascade of `getGroupActiveNode`
(`ConfigurationManager.ts:235-259`): unanimity among reporting members, then
the first `_VIP_`-marked reporter, then the first `_TARGET_`-marked reporter,
then the majority vote.  `chosen` is falsy exactly when it is `none` here
(the code never assigns an empty string to it). -/
def chooseNode (pm : List PerMember) : Option String :=
  let distinct := dedupFirst (truthyNodes pm)
  let c0 : Option String := if distinct.length == 1 then distinct.head? else none
  let vip : Option String :=
    match vipFind pm with
    | some x => x.node
    | none => none
  let c1 := if truthy c0 then c0 else if truthy vip then vip else c0
  let tgt : Option String :=
    match tgtFind pm with
    | some x => x.node
    | none => none
  let c2 := if truthy c1 then c1 else if truthy tgt then tgt else c1
  let counts := nodeCounts pm
  if !(truthy c2) && decide (0 < counts.length) then some (majorityNode counts) else c2

/-- Oracles of `getGroupActiveNode`: `locate` is the composite outcome of
`crm_resource --locate --resource <id>` followed by the
`is running on: <node>` regex extraction (`ConfigurationManager.ts:189-197`);
`statusQuery` is the outcome of `pcs status`; `parseGroupStatus` is the
status-text parser `parseGroupFromStatusText(text, groupId)`
(`ConfigurationManager.ts:199-208`), kept abstract because no claim depends
on the regex internals — `none` stands for its falsy outcomes. -/
structure ActiveNodeEnv where
  locate : String → Except ProcessError (Option String)
  statusQuery : Except ProcessError String
  parseGroupStatus : String → String → Option String

/-- The per-member diagnostic string of the inactive-group error
(`ConfigurationManager.ts:274-276`). -/
def inactiveDiag (members : List PCSResource) (pm : List PerMember) : String :=
  "members=[" ++ joinSep ", " (members.map (·.name)) ++ "];" ++
    " perMember=[" ++
    joinSep ", " (pm.map (fun x => x.id ++ "->" ++ x.node.getD "NOT RUNNING")) ++ "]"

/-- `PCSResourceManager.getGroupActiveNode` (`ConfigurationManager.ts:186-283`),
taking the already-fetched snapshot (`fetchResources` is modelled separately;
the claims about this function concern the choice cascade and the failure
diagnostic, both downstream of the fetch).  The group-existence set is
`resources.map(r => r.resourceGroup?.name).filter(Boolean)` (line 214), so
an `undefined` or empty-string group name never enters it. -/
def getGroupActiveNode (env : ActiveNodeEnv) (resources : List PCSResource)
    (groupName : String) : Except ProcessError String :=
  let groups := (resources.map (fun r => r.resourceGroup.map (·.name))).filterMap
    (fun o => if truthy o then o else none)
  if !(groups.contains groupName) then
    .error ⟨"Group \"" ++ groupName ++ "\" not found in PCS configuration."⟩
  else
    let members := groupMembers resources groupName
    if members.isEmpty then
      .error ⟨"Group \"" ++ groupName ++ "\" has no members."⟩
    else
      match members.mapM (fun r =>
          (env.locate r.name).map (fun n => PerMember.mk r.name n)) with
      | .error e => .error e
      | .ok pm =>
        match chooseNode pm with
        | some chosen => .ok chosen
        | none =>
          match env.statusQuery with
          | .error e => .error ⟨"Failed to query pcs status: " ++ e.message⟩
          | .ok statusText =>
            match env.parseGroupStatus statusText groupName with
            | some fromText => .ok fromText
            | none =>
              .error ⟨"Group \"" ++ groupName ++ "\" appears inactive (no started members). " ++
                inactiveDiag members pm⟩

/-- The anchor pair returned by `getAnchorsForGroup`. -/
structure PCSAnchors where
  targetPrimitiveId : String
  portBlockOffId : String
deriving DecidableEq, Repr

/-- `new Map(members.map(r => [r.name, r])).get(rid)`: on duplicate keys a
later `set` overwrites an earlier one, so lookup finds the last entry with
the given name. -/
def jsMapGet (members : List PCSResource) (rid : String) : Option PCSResource :=
  members.reverse.find? (fun r => r.name == rid)

/-- The anchor-scanning loop of `getAnchorsForGroup`
(`ConfigurationManager.ts:316-322`): walk the authoritative `member_ids`,
record the name of the first TARGET-typed and the first PORTBLOCK_OFF-typed
member, and break once both are set.  The accumulated ids are
`string | undefined` and the source tests them with string truthiness
(`!targetId && ...`, `targetId && portBlockOffId`), so an accumulated
empty-string name still counts as not found (and can be overwritten). -/
def anchorLoop (byId : String → Option PCSResource)
    (tgt pbo : Option String) : List String → Option String × Option String
  | [] => (tgt, pbo)
  | rid :: rest =>
    match byId rid with
    | none => anchorLoop byId tgt pbo rest
    | some r =>
      let tgt' := if !(truthy tgt) && r.resourceType == PCSResourceType.TARGET
        then some r.name else tgt
      let pbo' := if !(truthy pbo) && r.resourceType == PCSResourceType.PORTBLOCK_OFF
        then some r.name else pbo
      if truthy tgt' && truthy pbo' then (tgt', pbo')
      else anchorLoop byId tgt' pbo' rest

/-- `PCSResourceManager.getAnchorsForGroup` (`ConfigurationManager.ts:285-332`),
taking the already-fetched snapshot and the oracle outcome of the richer
`pcs resource config --output-format json` query. -/
def getAnchorsForGroup (resources : List PCSResource)
    (cfgResult : Except ProcessError PCSConfigJson)
    (groupName : String) : Except ProcessError PCSAnchors :=
  let members := groupMembers resources groupName
  if members.isEmpty then
    .error ⟨"Group '" ++ groupName ++ "' not found or has no members."⟩
  else
    match cfgResult with
    | .error e => .error ⟨"Unable to get PCS configuration: " ++ e.message⟩
    | .ok cfg =>
      match cfg.groups.find? (fun g => g.id == groupName) with
      | none =>
        .error ⟨"Group '" ++ groupName ++ "' not found in PCS configuration."⟩
      | some grp =>
        let scan := anchorLoop (jsMapGet members) none none grp.member_ids
        -- `if (!targetId) throw` / `if (!portBlockOffId) throw`: string
        -- truthiness again, so an empty-string id counts as missing.  The
        -- `getD ""` defaults are unreachable: the truthy guards imply both
        -- ids are present.
        if !(truthy scan.1) then
          .error ⟨"No TARGET primitive found in group '" ++ groupName ++ "'."⟩
        else if !(truthy scan.2) then
          .error ⟨"No PORTBLOCK_OFF primitive found in group '" ++ groupName ++ "'."⟩
        else
          .ok ⟨scan.1.getD "", scan.2.getD ""⟩

/-- A concrete catalog instance used as test input.  The spec fixes only that
the two PORTBLOCK variants share the agent name `portblock` and that agent
names otherwise identify their type uniquely; the other names and the ranks
here are arbitrary test data (ranks 1, 2, 4, 3 in enumeration order). -/
def testCatalog : Catalog :=
  ⟨fun
    | .TARGET => ⟨"tA", 1⟩
    | .PORTBLOCK_ON => ⟨"portblock", 2⟩
    | .PORTBLOCK_OFF => ⟨"portblock", 4⟩
    | .VIP => ⟨"vA", 3⟩⟩

/-- A second test catalog, identical to `testCatalog` except that VIP has
rank 5 (for the append-at-end example). -/
def testCatalog5 : Catalog :=
  ⟨fun
    | .TARGET => ⟨"tA", 1⟩
    | .PORTBLOCK_ON => ⟨"portblock", 2⟩
    | .PORTBLOCK_OFF => ⟨"portblock", 4⟩
    | .VIP => ⟨"vA", 5⟩⟩

/-- First resource of the given type along an id list, resolving ids through
`byId` and skipping unresolvable ids — the specification-level reading of the
anchor scan. -/
def firstOfType (byId : String → Option PCSResource) (ids : List String)
    (ty : PCSResourceType) : Option PCSResource :=
  ids.findSome? (fun rid =>
    match byId rid with
    | some r => if r.resourceType == ty then some r else none
    | none => none)

/-- Name of the first resource of the given type along the id list — what
the anchor scan accumulates (when the member names are truthy). -/
def firstNameOfType (byId : String → Option PCSResource) (ids : List String)
    (ty : PCSResourceType) : Option String :=
  (firstOfType byId ids ty).map (·.name)

/-- Count recorded for a node in a tally association list (0 when absent). -/
def lookupCount : List (String × Nat) → String → Nat
  | [], _ => 0
  | p :: rest, n => if p.1 == n then p.2 else lookupCount rest n

lemma replaceFirstColonAux_of_no_colon (l : List Char) (h : ∀ c ∈ l, c ≠ ':') :
    replaceFirstColonAux l = l := by
  induction l with
  | nil => rfl
  | cons c cs ih =>
    have hc : (c == ':') = false := beq_eq_false_iff_ne.mpr (h c (List.mem_cons_self c cs))
    simp [replaceFirstColonAux, hc, ih (fun d hd => h d (List.mem_cons_of_mem c hd))]

lemma replaceFirstColonAux_append (a b : List Char) (h : ∀ c ∈ a, c ≠ ':') :
    replaceFirstColonAux (a ++ ':' :: b) = a ++ '_' :: b := by
  induction a with
  | nil => simp [replaceFirstColonAux]
  | cons c cs ih =>
    have hc : (c == ':') = false := beq_eq_false_iff_ne.mpr (h c (List.mem_cons_self c cs))
    simp [replaceFirstColonAux, hc, ih (fun d hd => h d (List.mem_cons_of_mem c hd))]

lemma replaceFirstColon_no_colon (s : String) (h : ∀ c ∈ s.data, c ≠ ':') :
    replaceFirstColon s = s := by
  apply String.ext
  show replaceFirstColonAux s.data = s.data
  exact replaceFirstColonAux_of_no_colon s.data h

lemma replaceFirstColon_append (a b : String) (h : ∀ c ∈ a.data, c ≠ ':') :
    replaceFirstColon (a ++ ":" ++ b) = a ++ "_" ++ b := by
  apply String.ext
  show replaceFirstColonAux ((a ++ ":" ++ b).data) = (a ++ "_" ++ b).data
  rw [String.data_append, String.data_append, String.data_append, String.data_append]
  show replaceFirstColonAux (a.data ++ [':'] ++ b.data) = a.data ++ ['_'] ++ b.data
  rw [List.append_assoc, List.append_assoc]
  exact replaceFirstColonAux_append a.data b.data h

/-- C9.  For every `creationArgs` string containing a newline character,
`createResource` fails with the single-line validation failure and issues no
remote command at all: the result is the validation error, the state is the
unchanged input state, and the issued-command list is empty. -/
theorem C9_createResource_newline_validation
    (st : ManagerState) (name args : String) (ty : PCSResourceType)
    (exec : Except ProcessError Unit)
    (h : args.data.contains '\n' = true) :
    createResource st name args ty exec =
      ⟨.err ⟨"PCS creation arguments must be a single line."⟩, st, []⟩ := by
  have hm : '\n' ∈ args.data := by simpa using h
  have h2 : hasNewline args = true := by
    rw [hasNewline, List.any_eq_true]
    exact ⟨'\n', hm, by decide⟩
  simp [createResource, h2]

/-- Witness for C9 at a concrete input. -/
theorem C9_witness :
    "bad\nargs".data.contains '\n' = true
    ∧ createResource ⟨some []⟩ "n" "bad\nargs" .TARGET (.ok ()) =
        ⟨.err ⟨"PCS creation arguments must be a single line."⟩, ⟨some []⟩, []⟩ :=
  ⟨by decide,
   C9_createResource_newline_validation ⟨some []⟩ "n" "bad\nargs" .TARGET (.ok ()) (by decide)⟩

/-- C10.  When the snapshot cache was never populated
(`currentResources = undefined`) and the remote command succeeds,
`createResource`, `deleteResource` and `deleteResourceGroup` do not put a
typed failure in the `Result` channel: their cache-update step dereferences
the absent cache through a non-null assertion and ends in an untyped runtime
exception (`crash`), after the remote command was already issued. -/
theorem C10_absent_cache_crash
    (name args : String) (ty : PCSResourceType) (resourceName groupName : String)
    (h : hasNewline args = false) :
    (createResource ⟨none⟩ name args ty (.ok ())).outcome = .crash
    ∧ (createResource ⟨none⟩ name args ty (.ok ())).commands.length = 1
    ∧ (deleteResource ⟨none⟩ resourceName (.ok ())).outcome = .crash
    ∧ (deleteResource ⟨none⟩ resourceName (.ok ())).commands.length = 1
    ∧ (deleteResourceGroup ⟨none⟩ groupName (.ok ())).outcome = .crash
    ∧ (deleteResourceGroup ⟨none⟩ groupName (.ok ())).commands.length = 1 := by
  refine ⟨?_, ?_, ?_, ?_, ?_, ?_⟩ <;>
    simp [createResource, deleteResource, deleteResourceGroup, h]

/-- Witness for C10 at a concrete input. -/
theorem C10_witness :
    hasNewline "args" = false
    ∧ (createResource ⟨none⟩ "n" "args" .TARGET (.ok ())).outcome = .crash
    ∧ (deleteResource ⟨none⟩ "r" (.ok ())).outcome = .crash
    ∧ (deleteResourceGroup ⟨none⟩ "g" (.ok ())).outcome = .crash :=
  have h := C10_absent_cache_crash "n" "args" .TARGET "r" "g" (by decide)
  ⟨by decide, h.1, h.2.2.1, h.2.2.2.2.1⟩

/-- C8.  `fetchResources` is idempotent under an unchanged cache: starting
from a never-populated cache, the first call issues exactly one remote bulk
query, the second call issues none, and both calls return the identical
resource sequence. -/
theorem C8_fetchResources_idempotent (cat : Catalog) (cfg : PCSConfigJson) :
    (fetchResources cat ⟨.ok cfg⟩ ⟨none⟩).commands =
      [.argv ["pcs", "resource", "config", "--output-format", "json"]]
    ∧ (fetchResources cat ⟨.ok cfg⟩ ⟨none⟩).outcome = .ok (buildResources cat cfg)
    ∧ (fetchResources cat ⟨.ok cfg⟩ (fetchResources cat ⟨.ok cfg⟩ ⟨none⟩).state).commands = []
    ∧ (fetchResources cat ⟨.ok cfg⟩ (fetchResources cat ⟨.ok cfg⟩ ⟨none⟩).state).outcome =
        (fetchResources cat ⟨.ok cfg⟩ ⟨none⟩).outcome
    ∧ (fetchResources cat ⟨.ok cfg⟩ (fetchResources cat ⟨.ok cfg⟩ ⟨none⟩).state).state =
        (fetchResources cat ⟨.ok cfg⟩ ⟨none⟩).state := by
  refine ⟨?_, ?_, ?_, ?_, ?_⟩ <;> simp [fetchResources]

/-- C6 counterexample.  `name.replace(':', '_')` replaces only the first
colon: creating a resource named `a:b:c` yields the resource name `a_b:c`,
which still contains a colon — refuting "a name containing two or more
colons ends up with no colons". -/
theorem C6_counterexample :
    (createResource ⟨some []⟩ "a:b:c" "args" .TARGET (.ok ())).outcome =
      .ok ⟨"a_b:c", .TARGET, none⟩
    ∧ "a_b:c".data.contains ':' = true := by
  exact ⟨rfl, by decide⟩

/-- C6 (amended).  `createResource` normalizes the name by replacing only
the *first* literal colon with an underscore before issuing the create
command; the resource appended to the cache and returned bears that
partially normalized name.  A colon-free name is left unchanged, and a name
`a:rest` with colon-free `a` becomes `a_rest`, leaving any later colons in
place. -/
theorem C6_createResource_first_colon_only :
    (∀ (l : List PCSResource) (name args : String) (ty : PCSResourceType),
      hasNewline args = false →
      createResource ⟨some l⟩ name args ty (.ok ()) =
        ⟨.ok ⟨replaceFirstColon name, ty, none⟩,
         ⟨some (l ++ [⟨replaceFirstColon name, ty, none⟩])⟩,
         [.bash ("pcs resource create '" ++ replaceFirstColon name ++ "' " ++ args)]⟩)
    ∧ (∀ s : String, (∀ c ∈ s.data, c ≠ ':') → replaceFirstColon s = s)
    ∧ (∀ a b : String, (∀ c ∈ a.data, c ≠ ':') →
        replaceFirstColon (a ++ ":" ++ b) = a ++ "_" ++ b) := by
  refine ⟨?_, replaceFirstColon_no_colon, replaceFirstColon_append⟩
  intro l name args ty h
  simp [createResource, h]

/-- Witness for C6's amended theorem at a concrete input. -/
theorem C6_witness :
    hasNewline "args" = false
    ∧ createResource ⟨some []⟩ "a:b:c" "args" .TARGET (.ok ()) =
        ⟨.ok ⟨replaceFirstColon "a:b:c", .TARGET, none⟩,
         ⟨some [⟨replaceFirstColon "a:b:c", .TARGET, none⟩]⟩,
         [.bash ("pcs resource create '" ++ replaceFirstColon "a:b:c" ++ "' " ++ "args")]⟩ :=
  ⟨by decide,
   by simpa using
     C6_createResource_first_colon_only.1 [] "a:b:c" "args" .TARGET (by decide)⟩

/-- C5 counterexample.  `addResourceToGroup` assigns
`resource.resourceGroup = resourceGroup` *before* handing the group-add
command to `server.execute`: when the command fails, the cached resource's
group reference has already changed, so the snapshot cache is not "exactly
as it was before the call". -/
theorem C5_counterexample :
    (addResourceToGroup testCatalog ⟨.ok ⟨[], []⟩⟩ (.error ⟨"boom"⟩)
        ⟨some [⟨"r1", .TARGET, none⟩]⟩ ⟨"r1", .TARGET, none⟩ "g").outcome =
      .err ⟨"boom"⟩
    ∧ (addResourceToGroup testCatalog ⟨.ok ⟨[], []⟩⟩ (.error ⟨"boom"⟩)
        ⟨some [⟨"r1", .TARGET, none⟩]⟩ ⟨"r1", .TARGET, none⟩ "g").state ≠
      ⟨some [⟨"r1", .TARGET, none⟩]⟩ := by
  exact ⟨rfl, by decide⟩

/-- C5 (amended).  For `createResource`, `deleteResource` and
`deleteResourceGroup` a failed remote command leaves the snapshot cache
exactly as it was before the call.  `addResourceToGroup`, however, updates
the resource's `resourceGroup` reference before issuing the command, so
after a failed command the cache differs from the original exactly by that
group reference (everything else is unchanged). -/
theorem C5_cache_mutation_on_failure :
    (∀ (st : ManagerState) (name args : String) (ty : PCSResourceType) (e : ProcessError),
      (createResource st name args ty (.error e)).state = st)
    ∧ (∀ (st : ManagerState) (name : String) (e : ProcessError),
      (deleteResource st name (.error e)).state = st)
    ∧ (∀ (st : ManagerState) (g : String) (e : ProcessError),
      (deleteResourceGroup st g (.error e)).state = st)
    ∧ (∀ (cat : Catalog) (fenv : FetchEnv) (l : List PCSResource)
        (r : PCSResource) (g : String) (e : ProcessError),
      (addResourceToGroup cat fenv (.error e) ⟨some l⟩ r g).outcome = .err e
      ∧ (addResourceToGroup cat fenv (.error e) ⟨some l⟩ r g).state =
        ⟨some (l.map (fun x =>
          if x.name == r.name then { x with resourceGroup := some ⟨g⟩ } else x))⟩) := by
  refine ⟨?_, ?_, ?_, ?_⟩
  · intro st name args ty e
    by_cases h : hasNewline args = true <;> simp [createResource, h]
  · intro st name e
    simp [deleteResource]
  · intro st g e
    simp [deleteResourceGroup]
  · intro cat fenv l r g e
    exact ⟨by simp [addResourceToGroup, fetchResources], by simp [addResourceToGroup, fetchResources]⟩

/-- Witness for C5's amended theorem at a concrete input. -/
theorem C5_witness :
    (createResource ⟨some []⟩ "n" "a" .TARGET (.error ⟨"x"⟩)).state = ⟨some []⟩
    ∧ (addResourceToGroup testCatalog ⟨.ok ⟨[], []⟩⟩ (.error ⟨"x"⟩)
        ⟨some [⟨"r1", .TARGET, none⟩]⟩ ⟨"r1", .TARGET, none⟩ "g").state =
      ⟨some ([⟨"r1", .TARGET, none⟩].map (fun x =>
        if x.name == "r1" then { x with resourceGroup := some ⟨"g"⟩ } else x))⟩ :=
  ⟨C5_cache_mutation_on_failure.1 ⟨some []⟩ "n" "a" .TARGET ⟨"x"⟩,
   (C5_cache_mutation_on_failure.2.2.2 testCatalog ⟨.ok ⟨[], []⟩⟩
     [⟨"r1", .TARGET, none⟩] ⟨"r1", .TARGET, none⟩ "g" ⟨"x"⟩).2⟩

/-- C3.  `addResourceToGroup` sorts the group's current members by their
type's `orderInGroup` rank, finds the first member whose rank is ≥ the rank
of the new resource's type, and issues the add-to-group command with
`--before` that member, or with no positional argument when there is none.
Concretely, with member ranks [1,2,4] a rank-3 resource is inserted before
the rank-4 member, a rank-5 resource is appended, and a rank-2 resource is
inserted before the existing rank-2 member. -/
theorem C3_group_add_insertion :
    (∀ (cat : Catalog) (fenv : FetchEnv) (exec : Except ProcessError Unit)
        (resources : List PCSResource) (resource : PCSResource) (g : String),
      (addResourceToGroup cat fenv exec ⟨some resources⟩ resource g).commands =
        [.argv (["pcs", "resource", "group", "add", g] ++
          (match (stableSortBy (fun r => (cat.info r.resourceType).orderInGroup)
                    (groupMembers resources g)).find?
                  (fun m => (cat.info resource.resourceType).orderInGroup ≤
                    (cat.info m.resourceType).orderInGroup) with
            | some nr => ["--before", nr.name]
            | none => []) ++ [resource.name])])
    ∧ (addResourceToGroup testCatalog ⟨.ok ⟨[], []⟩⟩ (.ok ())
        ⟨some [⟨"m4", .PORTBLOCK_OFF, some ⟨"g"⟩⟩, ⟨"m1", .TARGET, some ⟨"g"⟩⟩,
               ⟨"m2", .PORTBLOCK_ON, some ⟨"g"⟩⟩]⟩
        ⟨"new", .VIP, none⟩ "g").commands =
      [.argv ["pcs", "resource", "group", "add", "g", "--before", "m4", "new"]]
    ∧ (addResourceToGroup testCatalog5 ⟨.ok ⟨[], []⟩⟩ (.ok ())
        ⟨some [⟨"m4", .PORTBLOCK_OFF, some ⟨"g"⟩⟩, ⟨"m1", .TARGET, some ⟨"g"⟩⟩,
               ⟨"m2", .PORTBLOCK_ON, some ⟨"g"⟩⟩]⟩
        ⟨"new", .VIP, none⟩ "g").commands =
      [.argv ["pcs", "resource", "group", "add", "g", "new"]]
    ∧ (addResourceToGroup testCatalog ⟨.ok ⟨[], []⟩⟩ (.ok ())
        ⟨some [⟨"m4", .PORTBLOCK_OFF, some ⟨"g"⟩⟩, ⟨"m1", .TARGET, some ⟨"g"⟩⟩,
               ⟨"m2", .PORTBLOCK_ON, some ⟨"g"⟩⟩]⟩
        ⟨"new2", .PORTBLOCK_ON, none⟩ "g").commands =
      [.argv ["pcs", "resource", "group", "add", "g", "--before", "m2", "new2"]] := by
  refine ⟨?_, by decide, by decide, by decide⟩
  intro cat fenv exec resources resource g
  cases exec <;> simp [addResourceToGroup, fetchResources]

/-- C7 counterexample.  A primitive using the shared `portblock` agent whose
`action` instance attribute is *absent* falls through the classification
loop and classifies as no type at all (`undefined`), not as PORTBLOCK_OFF. -/
theorem C7_counterexample :
    getResourceTypeOfPCSResource testCatalog ⟨"p", ⟨"portblock"⟩, []⟩ = none
    ∧ getResourceTypeOfPCSResource testCatalog ⟨"p", ⟨"portblock"⟩, []⟩ ≠
        some .PORTBLOCK_OFF := by
  exact ⟨rfl, by decide⟩

/-- C7 (amended).  For every catalog satisfying the spec's invariant (the
two PORTBLOCK variants share the agent name `portblock`, all other agent
names are distinct from each other and from `portblock`), classification is
deterministic and exclusive: a primitive whose agent matches TARGET's
(resp. VIP's) agent name classifies as exactly that type; a
`portblock`-agent primitive with `action = block` classifies as
PORTBLOCK_ON, one with a *present* `action` of any other value as
PORTBLOCK_OFF, and one whose `action` attribute is absent classifies as no
type at all; a primitive matching no agent name classifies as no type. -/
theorem C7_classification (cat : Catalog)
    (hON : (cat.info .PORTBLOCK_ON).internalTypeName = "portblock")
    (hOFF : (cat.info .PORTBLOCK_OFF).internalTypeName = "portblock")
    (hT : (cat.info .TARGET).internalTypeName ≠ "portblock")
    (hV : (cat.info .VIP).internalTypeName ≠ "portblock")
    (hTV : (cat.info .TARGET).internalTypeName ≠ (cat.info .VIP).internalTypeName)
    (prim : PCSResourceConfigJson) :
    (prim.agent_name.type = (cat.info .TARGET).internalTypeName →
      getResourceTypeOfPCSResource cat prim = some .TARGET)
    ∧ (prim.agent_name.type = (cat.info .VIP).internalTypeName →
      getResourceTypeOfPCSResource cat prim = some .VIP)
    ∧ (prim.agent_name.type = "portblock" →
        (findActionValue prim.instance_attributes = some "block" →
          getResourceTypeOfPCSResource cat prim = some .PORTBLOCK_ON)
        ∧ (∀ v, findActionValue prim.instance_attributes = some v → v ≠ "block" →
          getResourceTypeOfPCSResource cat prim = some .PORTBLOCK_OFF)
        ∧ (findActionValue prim.instance_attributes = none →
          getResourceTypeOfPCSResource cat prim = none))
    ∧ (prim.agent_name.type ≠ (cat.info .TARGET).internalTypeName →
        prim.agent_name.type ≠ (cat.info .VIP).internalTypeName →
        prim.agent_name.type ≠ "portblock" →
        getResourceTypeOfPCSResource cat prim = none) := by
  refine ⟨?_, ?_, ?_, ?_⟩
  · intro hA
    have c1 : ((cat.info PCSResourceType.TARGET).internalTypeName ==
        prim.agent_name.type) = true := beq_iff_eq.mpr hA.symm
    have c2 : ((cat.info PCSResourceType.TARGET).internalTypeName == "portblock") = false :=
      beq_eq_false_iff_ne.mpr hT
    simp [getResourceTypeOfPCSResource, PCSResourceType.values, classifyAux, c1, c2]
  · intro hA
    have c1 : ((cat.info PCSResourceType.TARGET).internalTypeName ==
        prim.agent_name.type) = false := by
      rw [hA]; exact beq_eq_false_iff_ne.mpr hTV
    have c2 : ((cat.info PCSResourceType.PORTBLOCK_ON).internalTypeName ==
        prim.agent_name.type) = false := by
      rw [hON, hA]; exact beq_eq_false_iff_ne.mpr (fun e => hV e.symm)
    have c3 : ((cat.info PCSResourceType.PORTBLOCK_OFF).internalTypeName ==
        prim.agent_name.type) = false := by
      rw [hOFF, hA]; exact beq_eq_false_iff_ne.mpr (fun e => hV e.symm)
    have c4 : ((cat.info PCSResourceType.VIP).internalTypeName ==
        prim.agent_name.type) = true := beq_iff_eq.mpr hA.symm
    have c5 : ((cat.info PCSResourceType.VIP).internalTypeName == "portblock") = false :=
      beq_eq_false_iff_ne.mpr hV
    simp [getResourceTypeOfPCSResource, PCSResourceType.values, classifyAux, c1, c2, c3, c4, c5]
  · intro hA
    have c1 : ((cat.info PCSResourceType.TARGET).internalTypeName ==
        prim.agent_name.type) = false := by
      rw [hA]; exact beq_eq_false_iff_ne.mpr hT
    have c2 : ((cat.info PCSResourceType.PORTBLOCK_ON).internalTypeName ==
        prim.agent_name.type) = true := by rw [hON, hA]; rfl
    have c2b : ((cat.info PCSResourceType.PORTBLOCK_ON).internalTypeName == "portblock") = true := by
      rw [hON]; rfl
    have c3 : ((cat.info PCSResourceType.PORTBLOCK_OFF).internalTypeName ==
        prim.agent_name.type) = true := by rw [hOFF, hA]; rfl
    have c3b : ((cat.info PCSResourceType.PORTBLOCK_OFF).internalTypeName == "portblock") = true := by
      rw [hOFF]; rfl
    have c4 : ((cat.info PCSResourceType.VIP).internalTypeName ==
        prim.agent_name.type) = false := by
      rw [hA]; exact beq_eq_false_iff_ne.mpr hV
    refine ⟨?_, ?_, ?_⟩
    · intro hAct
      simp [getResourceTypeOfPCSResource, PCSResourceType.values, classifyAux,
        c1, c2, c2b, hAct]
    · intro v hAct hv
      have hvb : (v == "block") = false := beq_eq_false_iff_ne.mpr hv
      simp [getResourceTypeOfPCSResource, PCSResourceType.values, classifyAux,
        c1, c2, c2b, hAct, hvb]
    · intro hAct
      simp [getResourceTypeOfPCSResource, PCSResourceType.values, classifyAux,
        c1, c2, c2b, c3, c3b, c4, hAct]
  · intro h1 h2 h3
    have c1 : ((cat.info PCSResourceType.TARGET).internalTypeName ==
        prim.agent_name.type) = false := beq_eq_false_iff_ne.mpr (fun e => h1 e.symm)
    have c2 : ((cat.info PCSResourceType.PORTBLOCK_ON).internalTypeName ==
        prim.agent_name.type) = false := by
      rw [hON]; exact beq_eq_false_iff_ne.mpr (fun e => h3 e.symm)
    have c3 : ((cat.info PCSResourceType.PORTBLOCK_OFF).internalTypeName ==
        prim.agent_name.type) = false := by
      rw [hOFF]; exact beq_eq_false_iff_ne.mpr (fun e => h3 e.symm)
    have c4 : ((cat.info PCSResourceType.VIP).internalTypeName ==
        prim.agent_name.type) = false := beq_eq_false_iff_ne.mpr (fun e => h2 e.symm)
    simp [getResourceTypeOfPCSResource, PCSResourceType.values, classifyAux, c1, c2, c3, c4]

/-- Witness for C7's amended theorem at a concrete catalog and primitives. -/
theorem C7_witness :
    (testCatalog.info .PORTBLOCK_ON).internalTypeName = "portblock"
    ∧ (⟨"p", ⟨"tA"⟩, []⟩ : PCSResourceConfigJson).agent_name.type =
        (testCatalog.info .TARGET).internalTypeName
    ∧ getResourceTypeOfPCSResource testCatalog ⟨"p", ⟨"tA"⟩, []⟩ = some .TARGET
    ∧ getResourceTypeOfPCSResource testCatalog
        ⟨"p", ⟨"portblock"⟩, [⟨[⟨"i", "action", "block"⟩]⟩]⟩ = some .PORTBLOCK_ON :=
  ⟨rfl, rfl,
   (C7_classification testCatalog rfl rfl (by decide) (by decide) (by decide)
     ⟨"p", ⟨"tA"⟩, []⟩).1 rfl,
   ((C7_classification testCatalog rfl rfl (by decide) (by decide) (by decide)
     ⟨"p", ⟨"portblock"⟩, [⟨[⟨"i", "action", "block"⟩]⟩]⟩).2.2.1 rfl).1 rfl⟩

lemma jsMapGet_name (members : List PCSResource) (rid : String) (r : PCSResource)
    (h : jsMapGet members rid = some r) : r.name = rid := by
  rw [jsMapGet] at h
  have hp := List.find?_some h
  exact beq_iff_eq.mp hp

lemma truthy_some_exists (o : Option String) (h : truthy o = true) : ∃ a, o = some a := by
  cases o with
  | none => exact absurd h (by decide)
  | some a => exact ⟨a, rfl⟩

lemma jsMapGet_mem (members : List PCSResource) (rid : String) (r : PCSResource)
    (h : jsMapGet members rid = some r) : r ∈ members := by
  rw [jsMapGet] at h
  exact List.mem_reverse.mp (List.mem_of_find?_eq_some h)

lemma orElse_anchor_step (byId : String → Option PCSResource) (rid : String)
    (rest : List String) (r : PCSResource) (o : Option String)
    (ty : PCSResourceType) (hb : byId rid = some r)
    (ho : o = none ∨ truthy o = true) :
    (if !(truthy o) && (r.resourceType == ty) then some r.name else o).orElse
        (fun _ => firstNameOfType byId rest ty) =
      o.orElse (fun _ => firstNameOfType byId (rid :: rest) ty) := by
  cases ho with
  | inr htr =>
    rw [htr]
    obtain ⟨a, ha⟩ := truthy_some_exists o htr
    rw [ha]
    rfl
  | inl hn =>
    rw [hn]
    by_cases hr : (r.resourceType == ty) = true
    · have hr2 : r.resourceType = ty := beq_iff_eq.mp hr
      simp [hr2, truthy, Option.orElse, firstNameOfType, firstOfType,
        List.findSome?_cons, hb]
    · have hr2 : ¬ r.resourceType = ty := fun e => hr (beq_iff_eq.mpr e)
      simp [hr2, truthy, Option.orElse, firstNameOfType, firstOfType,
        List.findSome?_cons, hb]

lemma anchorLoop_spec (byId : String → Option PCSResource)
    (hby : ∀ rid r, byId rid = some r → truthy (some r.name) = true) :
    ∀ (ids : List String) (tgt pbo : Option String),
    (tgt = none ∨ truthy tgt = true) → (pbo = none ∨ truthy pbo = true) →
    anchorLoop byId tgt pbo ids =
      (tgt.orElse (fun _ => firstNameOfType byId ids .TARGET),
       pbo.orElse (fun _ => firstNameOfType byId ids .PORTBLOCK_OFF)) := by
  intro ids
  induction ids with
  | nil => intro tgt pbo _ _; cases tgt <;> cases pbo <;> rfl
  | cons rid rest ih =>
    intro tgt pbo htgt hpbo
    cases hb : byId rid with
    | none =>
      simp only [anchorLoop, hb]
      rw [ih tgt pbo htgt hpbo]
      have e : ∀ ty, firstNameOfType byId (rid :: rest) ty = firstNameOfType byId rest ty := by
        intro ty; simp [firstNameOfType, firstOfType, List.findSome?_cons, hb]
      rw [e, e]
    | some r =>
      have e1 := orElse_anchor_step byId rid rest r tgt .TARGET hb htgt
      have e2 := orElse_anchor_step byId rid rest r pbo .PORTBLOCK_OFF hb hpbo
      have htgt2 : (if (!(truthy tgt) && r.resourceType == PCSResourceType.TARGET) = true
          then some r.name else tgt) = none ∨
          truthy (if (!(truthy tgt) && r.resourceType == PCSResourceType.TARGET) = true
            then some r.name else tgt) = true := by
        by_cases hc : (!(truthy tgt) && r.resourceType == PCSResourceType.TARGET) = true
        · rw [if_pos hc]; exact Or.inr (hby rid r hb)
        · rw [if_neg hc]; exact htgt
      have hpbo2 : (if (!(truthy pbo) && r.resourceType == PCSResourceType.PORTBLOCK_OFF) = true
          then some r.name else pbo) = none ∨
          truthy (if (!(truthy pbo) && r.resourceType == PCSResourceType.PORTBLOCK_OFF) = true
            then some r.name else pbo) = true := by
        by_cases hc : (!(truthy pbo) && r.resourceType == PCSResourceType.PORTBLOCK_OFF) = true
        · rw [if_pos hc]; exact Or.inr (hby rid r hb)
        · rw [if_neg hc]; exact hpbo
      simp only [anchorLoop, hb]
      by_cases hbk : (truthy (if (!(truthy tgt) && r.resourceType == PCSResourceType.TARGET) = true
            then some r.name else tgt)
          && truthy (if (!(truthy pbo) && r.resourceType == PCSResourceType.PORTBLOCK_OFF) = true
            then some r.name else pbo)) = true
      · rw [if_pos hbk]
        rw [Bool.and_eq_true] at hbk
        obtain ⟨hs1, hs2⟩ := hbk
        obtain ⟨a, ha⟩ := truthy_some_exists _ hs1
        obtain ⟨b, hbb⟩ := truthy_some_exists _ hs2
        rw [← e1, ← e2, ha, hbb]
        rfl
      · rw [if_neg hbk, ih _ _ htgt2 hpbo2, e1, e2]

lemma firstOfType_mem (byId : String → Option PCSResource) (ids : List String)
    (ty : PCSResourceType) (r : PCSResource)
    (h : firstOfType byId ids ty = some r) : ∃ rid ∈ ids, byId rid = some r := by
  induction ids with
  | nil => simp [firstOfType] at h
  | cons rid rest ih =>
    rw [firstOfType, List.findSome?_cons] at h
    cases hb : byId rid with
    | none =>
      simp only [hb] at h
      obtain ⟨rid2, hm, he⟩ := ih (by rw [firstOfType]; exact h)
      exact ⟨rid2, List.mem_cons_of_mem _ hm, he⟩
    | some x =>
      simp only [hb] at h
      by_cases hx : (x.resourceType == ty) = true
      · rw [if_pos hx] at h
        have hxr : x = r := by injection h
        exact ⟨rid, List.mem_cons_self _ _, by rw [hb, hxr]⟩
      · rw [if_neg hx] at h
        obtain ⟨rid2, hm, he⟩ := ih (by rw [firstOfType]; exact h)
        exact ⟨rid2, List.mem_cons_of_mem _ hm, he⟩

lemma firstOfType_find_id (members : List PCSResource) (ids : List String)
    (ty : PCSResourceType) (r : PCSResource)
    (h : firstOfType (jsMapGet members) ids ty = some r) :
    ids.find? (fun rid =>
      match jsMapGet members rid with
      | some x => x.resourceType == ty
      | none => false) = some r.name := by
  induction ids with
  | nil => simp [firstOfType] at h
  | cons rid rest ih =>
    rw [firstOfType, List.findSome?_cons] at h
    cases hb : jsMapGet members rid with
    | none =>
      simp only [hb] at h
      simp only [List.find?_cons, hb]
      exact ih (by rw [firstOfType]; exact h)
    | some x =>
      simp only [hb] at h
      by_cases hx : (x.resourceType == ty) = true
      · rw [if_pos hx] at h
        have hxr : x = r := by injection h
        simp only [List.find?_cons, hb, hx]
        rw [← hxr, jsMapGet_name members rid x hb]
      · rw [if_neg hx] at h
        simp only [List.find?_cons, hb]
        have hx2 : (x.resourceType == ty) = false := by
          cases hxe : (x.resourceType == ty) with
          | false => rfl
          | true => exact absurd hxe hx
        simp only [hx2]
        exact ih (by rw [firstOfType]; exact h)

lemma anchors_messages_ne (g : String) :
    ("No TARGET primitive found in group '" ++ g ++ "'." : String) ≠
      "No PORTBLOCK_OFF primitive found in group '" ++ g ++ "'." := by
  intro h
  have h2 := congrArg (fun s => s.data[3]?) h
  simp only [String.data_append] at h2
  have e1 : ("No TARGET primitive found in group '".data).length = 36 := by decide
  have e2 : ("No PORTBLOCK_OFF primitive found in group '".data).length = 43 := by decide
  have hb1 : (3 : Nat) < ("No TARGET primitive found in group '".data).length := by omega
  have hb2 : (3 : Nat) < ("No TARGET primitive found in group '".data ++ g.data).length := by
    rw [List.length_append]; omega
  have hb3 : (3 : Nat) < ("No PORTBLOCK_OFF primitive found in group '".data).length := by omega
  have hb4 : (3 : Nat) < ("No PORTBLOCK_OFF primitive found in group '".data ++ g.data).length := by
    rw [List.length_append]; omega
  rw [List.getElem?_append_left hb2, List.getElem?_append_left hb1,
    List.getElem?_append_left hb4, List.getElem?_append_left hb3] at h2
  exact absurd h2 (by decide)

lemma StrInfix.append_left (n h a : String) : StrInfix n h → StrInfix n (a ++ h)
  | ⟨p, q, e⟩ => ⟨a ++ p, q, by rw [e, ← String.append_assoc, ← String.append_assoc]⟩

lemma StrInfix.append_right (n h b : String) : StrInfix n h → StrInfix n (h ++ b)
  | ⟨p, q, e⟩ => ⟨p, q ++ b, by rw [e, String.append_assoc]⟩

lemma StrInfix_refl (n : String) : StrInfix n n :=
  ⟨"", "", by simp⟩

lemma StrInfix_joinSep (sep : String) (l : List String) (x : String) (hx : x ∈ l) :
    StrInfix x (joinSep sep l) := by
  induction l with
  | nil => cases hx
  | cons a t ih =>
    cases t with
    | nil =>
      cases hx with
      | head => exact StrInfix_refl _
      | tail _ hmem => cases hmem
    | cons b u =>
      cases hx with
      | head =>
        simp only [joinSep]
        exact StrInfix.append_right _ _ _ (StrInfix.append_right _ _ _ (StrInfix_refl _))
      | tail _ hmem =>
        simp only [joinSep]
        exact StrInfix.append_left _ _ _ (ih hmem)

/-- C4.  For a group whose member names are nonempty (the source tracks the
anchor ids with string truthiness, so an empty-string name would count as
not found), `getAnchorsForGroup` returns as `targetPrimitiveId` the first id
in the authoritative `member_ids` list whose resolved type is TARGET and as
`portBlockOffId` the first id whose resolved type is PORTBLOCK_OFF; a group
lacking a TARGET member fails with a message naming the group and the
missing TARGET, a group lacking a PORTBLOCK_OFF member fails analogously,
and the two failure messages are distinguishable by content. -/
theorem C4_anchor_resolution (resources : List PCSResource) (cfg : PCSConfigJson)
    (grp : PCSGroupJson) (g : String)
    (hm : (groupMembers resources g).isEmpty = false)
    (hg : cfg.groups.find? (fun x => x.id == g) = some grp)
    (hnames : ∀ r ∈ groupMembers resources g, ¬(r.name = "")) :
    (∀ t p,
      firstOfType (jsMapGet (groupMembers resources g)) grp.member_ids .TARGET = some t →
      firstOfType (jsMapGet (groupMembers resources g)) grp.member_ids .PORTBLOCK_OFF = some p →
      getAnchorsForGroup resources (.ok cfg) g = .ok ⟨t.name, p.name⟩
      ∧ grp.member_ids.find? (fun rid =>
          match jsMapGet (groupMembers resources g) rid with
          | some x => x.resourceType == PCSResourceType.TARGET
          | none => false) = some t.name
      ∧ grp.member_ids.find? (fun rid =>
          match jsMapGet (groupMembers resources g) rid with
          | some x => x.resourceType == PCSResourceType.PORTBLOCK_OFF
          | none => false) = some p.name)
    ∧ (firstOfType (jsMapGet (groupMembers resources g)) grp.member_ids .TARGET = none →
      getAnchorsForGroup resources (.ok cfg) g =
        .error ⟨"No TARGET primitive found in group '" ++ g ++ "'."⟩)
    ∧ (∀ t,
      firstOfType (jsMapGet (groupMembers resources g)) grp.member_ids .TARGET = some t →
      firstOfType (jsMapGet (groupMembers resources g)) grp.member_ids .PORTBLOCK_OFF = none →
      getAnchorsForGroup resources (.ok cfg) g =
        .error ⟨"No PORTBLOCK_OFF primitive found in group '" ++ g ++ "'."⟩)
    ∧ ("No TARGET primitive found in group '" ++ g ++ "'." : String) ≠
        "No PORTBLOCK_OFF primitive found in group '" ++ g ++ "'."
    ∧ StrInfix g ("No TARGET primitive found in group '" ++ g ++ "'.")
    ∧ StrInfix g ("No PORTBLOCK_OFF primitive found in group '" ++ g ++ "'.") := by
  have hby : ∀ rid r, jsMapGet (groupMembers resources g) rid = some r →
      truthy (some r.name) = true := by
    intro rid r hbr
    have hrm : r ∈ groupMembers resources g := jsMapGet_mem _ _ _ hbr
    rw [truthy, beq_eq_false_iff_ne.mpr (hnames r hrm)]
    rfl
  have hscan : anchorLoop (jsMapGet (groupMembers resources g)) none none grp.member_ids =
      (firstNameOfType (jsMapGet (groupMembers resources g)) grp.member_ids .TARGET,
       firstNameOfType (jsMapGet (groupMembers resources g)) grp.member_ids .PORTBLOCK_OFF) := by
    rw [anchorLoop_spec (jsMapGet (groupMembers resources g)) hby grp.member_ids none none
      (Or.inl rfl) (Or.inl rfl)]
    rfl
  refine ⟨?_, ?_, ?_, anchors_messages_ne g, ?_, ?_⟩
  · intro t p ht hp
    refine ⟨?_, firstOfType_find_id _ _ _ _ ht, firstOfType_find_id _ _ _ _ hp⟩
    have htn : truthy (some t.name) = true := by
      obtain ⟨rid, _, hbr⟩ := firstOfType_mem _ _ _ _ ht
      exact hby rid t hbr
    have hpn : truthy (some p.name) = true := by
      obtain ⟨rid, _, hbr⟩ := firstOfType_mem _ _ _ _ hp
      exact hby rid p hbr
    simp [getAnchorsForGroup, hm, hg, hscan, firstNameOfType, ht, hp, htn, hpn]
  · intro ht
    simp [getAnchorsForGroup, hm, hg, hscan, firstNameOfType, ht,
      show truthy none = false from rfl]
  · intro t ht hp
    have htn : truthy (some t.name) = true := by
      obtain ⟨rid, _, hbr⟩ := firstOfType_mem _ _ _ _ ht
      exact hby rid t hbr
    simp [getAnchorsForGroup, hm, hg, hscan, firstNameOfType, ht, hp, htn,
      show truthy none = false from rfl]
  · exact StrInfix.append_right _ _ _ (StrInfix.append_left _ _ _ (StrInfix_refl g))
  · exact StrInfix.append_right _ _ _ (StrInfix.append_left _ _ _ (StrInfix_refl g))

/-- Witness for C4 at a concrete group configuration. -/
theorem C4_witness :
    (groupMembers [⟨"t1", .TARGET, some ⟨"g"⟩⟩, ⟨"pb1", .PORTBLOCK_OFF, some ⟨"g"⟩⟩] "g").isEmpty
        = false
    ∧ (⟨[], [⟨"g", ["pb1", "t1"]⟩]⟩ : PCSConfigJson).groups.find? (fun x => x.id == "g") =
        some ⟨"g", ["pb1", "t1"]⟩
    ∧ (∀ r ∈ groupMembers [⟨"t1", .TARGET, some ⟨"g"⟩⟩, ⟨"pb1", .PORTBLOCK_OFF, some ⟨"g"⟩⟩] "g",
        ¬(r.name = ""))
    ∧ getAnchorsForGroup [⟨"t1", .TARGET, some ⟨"g"⟩⟩, ⟨"pb1", .PORTBLOCK_OFF, some ⟨"g"⟩⟩]
        (.ok ⟨[], [⟨"g", ["pb1", "t1"]⟩]⟩) "g" = .ok ⟨"t1", "pb1"⟩ :=
  ⟨rfl, rfl, by decide,
   ((C4_anchor_resolution
      [⟨"t1", .TARGET, some ⟨"g"⟩⟩, ⟨"pb1", .PORTBLOCK_OFF, some ⟨"g"⟩⟩]
      ⟨[], [⟨"g", ["pb1", "t1"]⟩]⟩ ⟨"g", ["pb1", "t1"]⟩ "g" rfl rfl (by decide)).1
      ⟨"t1", .TARGET, some ⟨"g"⟩⟩ ⟨"pb1", .PORTBLOCK_OFF, some ⟨"g"⟩⟩
      (by decide) (by decide)).1⟩

lemma truthyNodes_ne_empty (pm : List PerMember) (s : String) (h : s ∈ truthyNodes pm) :
    ¬(s = "") := by
  rw [truthyNodes] at h
  obtain ⟨o, ho, he⟩ := List.mem_filterMap.mp h
  by_cases ht : truthy o = true
  · rw [if_pos ht] at he
    rw [he] at ht
    rw [truthy] at ht
    cases hse : (s == "") with
    | true => rw [hse] at ht; exact absurd ht (by decide)
    | false => exact beq_eq_false_iff_ne.mp hse
  · rw [if_neg ht] at he
    exact absurd he (by simp)

lemma mem_truthyNodes_of (pm : List PerMember) (x : PerMember) (B : String)
    (hx : x ∈ pm) (hnode : x.node = some B) (hB : ¬(B = "")) : B ∈ truthyNodes pm := by
  rw [truthyNodes]
  apply List.mem_filterMap.mpr
  refine ⟨some B, List.mem_map.mpr ⟨x, hx, hnode⟩, ?_⟩
  have htr : truthy (some B) = true := by
    rw [truthy]
    rw [beq_eq_false_iff_ne.mpr hB]
    rfl
  rw [if_pos htr]

lemma mem_dedupFirst_aux (l : List String) : ∀ (acc : List String) (a : String),
    (a ∈ l.foldl (fun acc n => if acc.contains n then acc else acc ++ [n]) acc) ↔
      a ∈ acc ∨ a ∈ l := by
  induction l with
  | nil => intro acc a; simp
  | cons b t ih =>
    intro acc a
    rw [List.foldl_cons]
    by_cases hb : acc.contains b = true
    · rw [if_pos hb]
      rw [ih]
      have hbacc : b ∈ acc := by simpa using hb
      simp only [List.mem_cons]
      constructor
      · rintro (h | h)
        · exact Or.inl h
        · exact Or.inr (Or.inr h)
      · rintro (h | h | h)
        · exact Or.inl h
        · rw [h]; exact Or.inl hbacc
        · exact Or.inr h
    · rw [if_neg hb]
      rw [ih]
      simp only [List.mem_append, List.mem_singleton, List.mem_cons]
      tauto

lemma mem_dedupFirst (l : List String) (a : String) : a ∈ dedupFirst l ↔ a ∈ l := by
  rw [dedupFirst, mem_dedupFirst_aux]
  simp

lemma find?_filter_singleton (p q : α → Bool) (l : List α) (x : α)
    (hf : l.filter p = [x]) (hq : q x = true) :
    l.find? (fun y => p y && q y) = some x := by
  induction l with
  | nil => simp at hf
  | cons a t ih =>
    rw [List.filter_cons] at hf
    by_cases hpa : p a = true
    · rw [if_pos hpa] at hf
      injection hf with h1 h2
      subst h1
      simp [List.find?_cons, hpa, hq]
    · rw [if_neg hpa] at hf
      have hpa2 : p a = false := by
        cases hp2 : p a with
        | true => exact absurd hp2 hpa
        | false => rfl
      have hcond : (p a && q a) = false := by rw [hpa2]; rfl
      simp only [List.find?_cons, hcond]
      exact ih hf

lemma chooseNode_unanimous (pm : List PerMember) (n : String)
    (h : dedupFirst (truthyNodes pm) = [n]) : chooseNode pm = some n := by
  have hn : n ∈ truthyNodes pm :=
    (mem_dedupFirst (truthyNodes pm) n).mp (by rw [h]; exact List.mem_singleton.mpr rfl)
  have hne : (n == "") = false :=
    beq_eq_false_iff_ne.mpr (truthyNodes_ne_empty pm n hn)
  simp [chooseNode, h, truthy, hne]

lemma chooseNode_vip (pm : List PerMember) (x : PerMember) (B : String)
    (hlen : (dedupFirst (truthyNodes pm)).length ≠ 1)
    (hfind : vipFind pm = some x) (hnode : x.node = some B) : chooseNode pm = some B := by
  have hpred := List.find?_some (by rw [vipFind] at hfind; exact hfind)
  rw [Bool.and_eq_true] at hpred
  have htr : truthy x.node = true := hpred.2
  rw [hnode, truthy] at htr
  have hB : (B == "") = false := by
    cases hse : (B == "") with
    | true => rw [hse] at htr; exact absurd htr (by decide)
    | false => rfl
  have hlenb : ((dedupFirst (truthyNodes pm)).length == 1) = false :=
    beq_eq_false_iff_ne.mpr hlen
  simp [chooseNode, hlenb, hfind, hnode, truthy, hB]

lemma chooseNode_tgt (pm : List PerMember) (x : PerMember) (B : String)
    (hlen : (dedupFirst (truthyNodes pm)).length ≠ 1)
    (hvip : vipFind pm = none)
    (hfind : tgtFind pm = some x) (hnode : x.node = some B) : chooseNode pm = some B := by
  have hpred := List.find?_some (by rw [tgtFind] at hfind; exact hfind)
  rw [Bool.and_eq_true] at hpred
  have htr : truthy x.node = true := hpred.2
  rw [hnode, truthy] at htr
  have hB : (B == "") = false := by
    cases hse : (B == "") with
    | true => rw [hse] at htr; exact absurd htr (by decide)
    | false => rfl
  have hlenb : ((dedupFirst (truthyNodes pm)).length == 1) = false :=
    beq_eq_false_iff_ne.mpr hlen
  simp [chooseNode, hlenb, hvip, hfind, hnode, truthy, hB]

lemma chooseNode_majority (pm : List PerMember)
    (hlen : (dedupFirst (truthyNodes pm)).length ≠ 1)
    (hvip : vipFind pm = none) (htgt : tgtFind pm = none)
    (hc : nodeCounts pm ≠ []) :
    chooseNode pm = some (majorityNode (nodeCounts pm)) := by
  have hlenb : ((dedupFirst (truthyNodes pm)).length == 1) = false :=
    beq_eq_false_iff_ne.mpr hlen
  have hpos : decide (0 < (nodeCounts pm).length) = true :=
    decide_eq_true (List.length_pos.mpr hc)
  simp [chooseNode, hlenb, hvip, htgt, truthy, hpos]

lemma foldl_best_spec (l : List (String × Nat)) :
    ∀ (best : String × Int),
    ((l.foldl (fun b p => if (p.2 : Int) > b.2 then (p.1, (p.2 : Int)) else b) best) = best
      ∨ ∃ p ∈ l,
        (l.foldl (fun b p => if (p.2 : Int) > b.2 then (p.1, (p.2 : Int)) else b) best)
          = (p.1, (p.2 : Int)))
    ∧ (∀ p ∈ l,
        (p.2 : Int) ≤
          (l.foldl (fun b p => if (p.2 : Int) > b.2 then (p.1, (p.2 : Int)) else b) best).2)
    ∧ best.2 ≤
        (l.foldl (fun b p => if (p.2 : Int) > b.2 then (p.1, (p.2 : Int)) else b) best).2 := by
  induction l with
  | nil =>
    intro best
    exact ⟨Or.inl rfl, by simp, le_refl _⟩
  | cons q t ih =>
    intro best
    rw [List.foldl_cons]
    obtain ⟨ihmem, ihbound, ihbest⟩ :=
      ih (if (q.2 : Int) > best.2 then (q.1, (q.2 : Int)) else best)
    have hstep1 : (q.2 : Int) ≤
        (if (q.2 : Int) > best.2 then (q.1, (q.2 : Int)) else best).2 := by
      by_cases hq : (q.2 : Int) > best.2
      · rw [if_pos hq]
      · rw [if_neg hq]
        exact le_of_not_lt hq
    have hstep2 : best.2 ≤
        (if (q.2 : Int) > best.2 then (q.1, (q.2 : Int)) else best).2 := by
      by_cases hq : (q.2 : Int) > best.2
      · rw [if_pos hq]
        exact le_of_lt hq
      · rw [if_neg hq]
    refine ⟨?_, ?_, le_trans hstep2 ihbest⟩
    · by_cases hq : (q.2 : Int) > best.2
      · rw [if_pos hq] at ihmem ⊢
        cases ihmem with
        | inl he => exact Or.inr ⟨q, List.mem_cons_self q t, he⟩
        | inr hex =>
          obtain ⟨p, hp, he⟩ := hex
          exact Or.inr ⟨p, List.mem_cons_of_mem q hp, he⟩
      · rw [if_neg hq] at ihmem ⊢
        cases ihmem with
        | inl he => exact Or.inl he
        | inr hex =>
          obtain ⟨p, hp, he⟩ := hex
          exact Or.inr ⟨p, List.mem_cons_of_mem q hp, he⟩
    · intro p hp
      cases List.mem_cons.mp hp with
      | inl he => rw [he]; exact le_trans hstep1 ihbest
      | inr hmem => exact ihbound p hmem

lemma majorityNode_max (counts : List (String × Nat)) (hc : counts ≠ []) :
    ∃ c, (majorityNode counts, c) ∈ counts ∧ ∀ q ∈ counts, q.2 ≤ c := by
  obtain ⟨hmem, hbound, _⟩ := foldl_best_spec counts ("", -1)
  cases hmem with
  | inl he =>
    exfalso
    obtain ⟨q0, hq0⟩ := List.exists_mem_of_ne_nil counts hc
    have hb := hbound q0 hq0
    rw [he] at hb
    have hb2 : (q0.2 : Int) ≤ -1 := hb
    omega
  | inr hex =>
    obtain ⟨p, hp, he⟩ := hex
    refine ⟨p.2, ?_, ?_⟩
    · have hm : majorityNode counts = p.1 := by rw [majorityNode, he]
      rw [hm]
      exact hp
    · intro q hq
      have hb := hbound q hq
      rw [he] at hb
      have hb2 : (q.2 : Int) ≤ (p.2 : Int) := hb
      exact_mod_cast hb2

lemma lookupCount_bumpCount (acc : List (String × Nat)) (m n : String) :
    lookupCount (bumpCount acc m) n = lookupCount acc n + (if m == n then 1 else 0) := by
  induction acc with
  | nil =>
    cases hmn : (m == n) with
    | true => simp [bumpCount, lookupCount, hmn]
    | false => simp [bumpCount, lookupCount, hmn]
  | cons p rest ih =>
    by_cases hkm : (p.1 == m) = true
    · rw [bumpCount, if_pos hkm]
      cases hkn : (p.1 == n) with
      | true =>
        have hmn : (m == n) = true := by
          rw [beq_iff_eq]
          rw [← beq_iff_eq.mp hkm, ← beq_iff_eq.mp hkn]
        simp [lookupCount, hkn, hmn]
      | false =>
        have hmn : (m == n) = false := by
          rw [beq_eq_false_iff_ne]
          intro e
          rw [← e] at hkn
          rw [hkm] at hkn
          exact absurd hkn (by decide)
        simp [lookupCount, hkn, hmn]
    · rw [bumpCount, if_neg hkm]
      cases hkn : (p.1 == n) with
      | true =>
        have hmn : (m == n) = false := by
          rw [beq_eq_false_iff_ne]
          intro e
          rw [e] at hkm
          rw [hkn] at hkm
          exact hkm rfl
        simp [lookupCount, hkn, hmn]
      | false =>
        simp [lookupCount, hkn, ih]

lemma lookupCount_countFold (nodes : List (Option String)) (n : String)
    (hn : ¬(n = "")) :
    ∀ acc, lookupCount (nodes.foldl countStep acc) n =
      lookupCount acc n + (nodes.filter (fun o => o == some n)).length := by
  induction nodes with
  | nil => intro acc; simp
  | cons o t ih =>
    intro acc
    rw [List.foldl_cons, List.filter_cons]
    cases o with
    | none =>
      simp only [show ((none : Option String) == some n) = false from rfl,
        Bool.false_eq_true, if_false]
      exact ih acc
    | some m =>
      simp only [countStep]
      simp only [show ((some m == some n) : Bool) = (m == n) from rfl]
      by_cases hme : (m == "") = true
      · have hmn : (m == n) = false := by
          rw [beq_eq_false_iff_ne]
          intro e
          exact hn (by rw [← e, beq_iff_eq.mp hme])
        rw [if_pos hme]
        simp only [hmn, Bool.false_eq_true, if_false]
        exact ih acc
      · rw [if_neg hme, ih (bumpCount acc m), lookupCount_bumpCount]
        cases hmn : (m == n) with
        | true =>
          simp [hmn]
          omega
        | false =>
          simp [hmn]

lemma lookupCount_nodeCounts (pm : List PerMember) (n : String) (hn : ¬(n = "")) :
    lookupCount (nodeCounts pm) n = (pm.filter (fun x => x.node == some n)).length := by
  have h1 : nodeCounts pm = (pm.map (fun x => x.node)).foldl countStep [] := by
    rw [List.foldl_map]
    rfl
  rw [h1, lookupCount_countFold (pm.map (fun x => x.node)) n hn []]
  rw [List.filter_map, List.length_map]
  simp only [lookupCount, Nat.zero_add]
  rfl

/-- C1.  In the node-choice cascade of `getGroupActiveNode`: when the
per-member reports are not unanimous, the node reported by the first
`_VIP_`-marked reporting member is chosen; failing that, the node reported
by the first `_TARGET_`-marked reporting member; only when neither reported
does the majority vote decide, returning a node whose tally over all member
reports is maximal (`lookupCount` of `nodeCounts` counts exactly the
members reporting each node).  In particular, whenever exactly one member
carries the `_VIP_` marker and reports node `B`, while a strict majority of
members report node `A`, the chosen node is `B`; and a successful choice is
the `Ok` result of `getGroupActiveNode` itself. -/
theorem C1_role_preference :
    (∀ (pm : List PerMember) (x : PerMember) (B : String),
      (dedupFirst (truthyNodes pm)).length ≠ 1 →
      vipFind pm = some x → x.node = some B →
      chooseNode pm = some B)
    ∧ (∀ (pm : List PerMember) (x : PerMember) (B : String),
      (dedupFirst (truthyNodes pm)).length ≠ 1 →
      vipFind pm = none → tgtFind pm = some x → x.node = some B →
      chooseNode pm = some B)
    ∧ (∀ pm : List PerMember,
      (dedupFirst (truthyNodes pm)).length ≠ 1 →
      vipFind pm = none → tgtFind pm = none → nodeCounts pm ≠ [] →
      chooseNode pm = some (majorityNode (nodeCounts pm))
      ∧ (∃ c, (majorityNode (nodeCounts pm), c) ∈ nodeCounts pm
          ∧ ∀ q ∈ nodeCounts pm, q.2 ≤ c)
      ∧ (∀ m : String, ¬(m = "") →
          lookupCount (nodeCounts pm) m =
            (pm.filter (fun y => y.node == some m)).length))
    ∧ (∀ (pm : List PerMember) (x : PerMember) (A B : String),
      pm.filter (fun y => strIncludes y.id "_VIP_") = [x] →
      x.node = some B → ¬(B = "") →
      2 * (pm.filter (fun y => y.node == some A)).length > pm.length →
      chooseNode pm = some B)
    ∧ (∀ (env : ActiveNodeEnv) (resources : List PCSResource) (g : String)
        (pm : List PerMember) (B : String),
      ((resources.map (fun r => r.resourceGroup.map (·.name))).filterMap
        (fun o => if truthy o then o else none)).contains g = true →
      (groupMembers resources g).isEmpty = false →
      (groupMembers resources g).mapM (fun r =>
        (env.locate r.name).map (fun n => PerMember.mk r.name n)) = Except.ok pm →
      chooseNode pm = some B →
      getGroupActiveNode env resources g = Except.ok B) := by
  refine ⟨chooseNode_vip, chooseNode_tgt, ?_, ?_, ?_⟩
  · intro pm hlen hvip htgt hc
    exact ⟨chooseNode_majority pm hlen hvip htgt hc, majorityNode_max _ hc,
      fun m hm => lookupCount_nodeCounts pm m hm⟩
  · intro pm x A B hf hnode hB hmaj
    by_cases hlen : (dedupFirst (truthyNodes pm)).length = 1
    · obtain ⟨nn, hnn⟩ := List.length_eq_one.mp hlen
      have hxpm : x ∈ pm :=
        List.mem_of_mem_filter (p := fun y => strIncludes y.id "_VIP_")
          (by rw [hf]; exact List.mem_singleton.mpr rfl)
      have hBmem : B ∈ truthyNodes pm := mem_truthyNodes_of pm x B hxpm hnode hB
      have hBd : B ∈ dedupFirst (truthyNodes pm) := (mem_dedupFirst _ B).mpr hBmem
      rw [hnn] at hBd
      have hBn : B = nn := List.mem_singleton.mp hBd
      rw [← hBn] at hnn
      exact chooseNode_unanimous pm B hnn
    · have htrx : truthy x.node = true := by
        rw [hnode, truthy]
        rw [beq_eq_false_iff_ne.mpr hB]
        rfl
      have hfind : vipFind pm = some x := by
        rw [vipFind]
        exact find?_filter_singleton (fun y => strIncludes y.id "_VIP_")
          (fun y => truthy y.node) pm x hf htrx
      exact chooseNode_vip pm x B hlen hfind hnode
  · intro env resources g pm B hcon hne hloc hch
    have hcond : (!((resources.map (fun r => r.resourceGroup.map (·.name))).filterMap
        (fun o => if truthy o then o else none)).contains g) =
        false := by rw [hcon]; rfl
    simp only [getGroupActiveNode, hcond, Bool.false_eq_true, if_false, hne, hloc, hch]

/-- Witness for C1 at a concrete report configuration: one `_VIP_` member
reporting `B`, four members reporting `A`. -/
theorem C1_witness :
    ([⟨"iscsi_VIP_1", some "B"⟩, ⟨"p2", some "A"⟩, ⟨"p3", some "A"⟩, ⟨"p4", some "A"⟩,
        ⟨"p5", some "A"⟩] : List PerMember).filter (fun y => strIncludes y.id "_VIP_") =
      [⟨"iscsi_VIP_1", some "B"⟩]
    ∧ 2 * (([⟨"iscsi_VIP_1", some "B"⟩, ⟨"p2", some "A"⟩, ⟨"p3", some "A"⟩,
        ⟨"p4", some "A"⟩, ⟨"p5", some "A"⟩] : List PerMember).filter
          (fun y => y.node == some "A")).length >
        ([⟨"iscsi_VIP_1", some "B"⟩, ⟨"p2", some "A"⟩, ⟨"p3", some "A"⟩, ⟨"p4", some "A"⟩,
          ⟨"p5", some "A"⟩] : List PerMember).length
    ∧ chooseNode [⟨"iscsi_VIP_1", some "B"⟩, ⟨"p2", some "A"⟩, ⟨"p3", some "A"⟩,
        ⟨"p4", some "A"⟩, ⟨"p5", some "A"⟩] = some "B" :=
  ⟨by decide, by decide,
   C1_role_preference.2.2.2.1
     [⟨"iscsi_VIP_1", some "B"⟩, ⟨"p2", some "A"⟩, ⟨"p3", some "A"⟩, ⟨"p4", some "A"⟩,
       ⟨"p5", some "A"⟩]
     ⟨"iscsi_VIP_1", some "B"⟩ "A" "B" (by decide) rfl (by decide) (by decide)⟩

lemma mapM_locate_none (f : String → Except ProcessError (Option String))
    (l : List PCSResource) (h : ∀ r ∈ l, f r.name = .ok none) :
    l.mapM (fun r => (f r.name).map (fun n => PerMember.mk r.name n)) =
      .ok (l.map (fun r => PerMember.mk r.name none)) := by
  induction l with
  | nil => rfl
  | cons r t ih =>
    rw [List.mapM_cons]
    rw [h r (List.mem_cons_self r t)]
    rw [ih (fun x hx => h x (List.mem_cons_of_mem r hx))]
    rfl

lemma chooseNode_none_of_all_none (pm : List PerMember) (h : ∀ x ∈ pm, x.node = none) :
    chooseNode pm = none := by
  have h1 : truthyNodes pm = [] := by
    rw [truthyNodes]
    rw [List.filterMap_eq_nil_iff]
    intro o ho
    obtain ⟨x, hx, he⟩ := List.mem_map.mp ho
    rw [← he, h x hx]
    rfl
  have h2 : dedupFirst (truthyNodes pm) = [] := by rw [h1]; rfl
  have hvip : vipFind pm = none := by
    rw [vipFind, List.find?_eq_none]
    intro x hx
    rw [h x hx]
    simp [truthy]
  have htgt : tgtFind pm = none := by
    rw [tgtFind, List.find?_eq_none]
    intro x hx
    rw [h x hx]
    simp [truthy]
  have aux : ∀ (l : List PerMember), (∀ x ∈ l, x.node = none) →
      ∀ acc, l.foldl (fun acc x => countStep acc x.node) acc = acc := by
    intro l
    induction l with
    | nil => intro _ acc; rfl
    | cons a t iht =>
      intro hh acc
      rw [List.foldl_cons]
      rw [hh a (List.mem_cons_self a t)]
      exact iht (fun x hx => hh x (List.mem_cons_of_mem a hx)) acc
  have hcounts : nodeCounts pm = [] := by
    rw [nodeCounts]
    exact aux pm h []
  simp [chooseNode, h2, hvip, htgt, hcounts, truthy]

/-- C2.  When every member of a nonempty group with a nonempty name (the
group-existence set is built with `.filter(Boolean)`, so an empty-string
group name is rejected earlier as not found) fails to yield a node from
the per-member location queries and the status-text fallback also yields no
node, `getGroupActiveNode` fails with the inactive-group error whose
diagnostic message names every member of the group together with the
`NOT RUNNING` marker for its individual outcome (and names the group). -/
theorem C2_inactive_group_diagnostic (env : ActiveNodeEnv)
    (resources : List PCSResource) (g : String) (txt : String)
    (hgne : ¬(g = ""))
    (hm : groupMembers resources g ≠ [])
    (hloc : ∀ r ∈ groupMembers resources g, env.locate r.name = .ok none)
    (hst : env.statusQuery = .ok txt)
    (hparse : env.parseGroupStatus txt g = none) :
    ∃ e, getGroupActiveNode env resources g = .error e
      ∧ StrInfix "appears inactive" e.message
      ∧ StrInfix g e.message
      ∧ ∀ r ∈ groupMembers resources g, StrInfix (r.name ++ "->NOT RUNNING") e.message := by
  have hcon : (((resources.map (fun r => r.resourceGroup.map (·.name))).filterMap
      (fun o => if truthy o then o else none)).contains g) = true := by
    obtain ⟨r0, hr0⟩ := List.exists_mem_of_ne_nil _ hm
    rw [groupMembers] at hr0
    have hr0r : r0 ∈ resources := List.mem_of_mem_filter hr0
    have hpred := List.of_mem_filter hr0
    have hmem : g ∈ (resources.map (fun r => r.resourceGroup.map (·.name))).filterMap
        (fun o => if truthy o then o else none) := by
      apply List.mem_filterMap.mpr
      refine ⟨some g, ?_, ?_⟩
      · apply List.mem_map.mpr
        refine ⟨r0, hr0r, ?_⟩
        cases hrg : r0.resourceGroup with
        | none =>
          rw [hrg] at hpred
          exact Bool.noConfusion hpred
        | some gr =>
          rw [hrg] at hpred
          have hgr : gr.name = g := beq_iff_eq.mp hpred
          exact congrArg some hgr
      · have htg : truthy (some g) = true := by
          rw [truthy, beq_eq_false_iff_ne.mpr hgne]
          rfl
        rw [if_pos htg]
    simpa using hmem
  have hcond : (!((resources.map (fun r => r.resourceGroup.map (·.name))).filterMap
      (fun o => if truthy o then o else none)).contains g) =
      false := by rw [hcon]; rfl
  have hne : (groupMembers resources g).isEmpty = false := by
    cases hgm : groupMembers resources g with
    | nil => exact absurd hgm hm
    | cons a t => rfl
  have hpm := mapM_locate_none env.locate (groupMembers resources g) hloc
  have hch : chooseNode ((groupMembers resources g).map (fun r => PerMember.mk r.name none))
      = none := by
    apply chooseNode_none_of_all_none
    intro x hx
    obtain ⟨r, _, he⟩ := List.mem_map.mp hx
    rw [← he]
  have hres : getGroupActiveNode env resources g =
      .error ⟨"Group \"" ++ g ++ "\" appears inactive (no started members). " ++
        inactiveDiag (groupMembers resources g)
          ((groupMembers resources g).map (fun r => PerMember.mk r.name none))⟩ := by
    simp only [getGroupActiveNode, hcond, Bool.false_eq_true, if_false, hne, hpm, hch,
      hst, hparse]
  refine ⟨_, hres, ?_, ?_, ?_⟩
  · apply StrInfix.append_right
    apply StrInfix.append_left
    exact ⟨"\" ", " (no started members). ", by rfl⟩
  · apply StrInfix.append_right
    apply StrInfix.append_right
    exact StrInfix.append_left _ _ _ (StrInfix_refl g)
  · intro r hr
    have hparts : ("->NOT RUNNING" : String) = "->" ++ "NOT RUNNING" := by decide
    have hentry : (r.name ++ "->NOT RUNNING") = (r.name ++ "->" ++ "NOT RUNNING") := by
      rw [String.append_assoc, ← hparts]
    rw [hentry]
    have hmem2 : (r.name ++ "->" ++ "NOT RUNNING") ∈
        ((groupMembers resources g).map (fun r => PerMember.mk r.name none)).map
          (fun x => x.id ++ "->" ++ x.node.getD "NOT RUNNING") := by
      rw [List.map_map]
      exact List.mem_map.mpr ⟨r, hr, rfl⟩
    have hj := StrInfix_joinSep ", " _ _ hmem2
    apply StrInfix.append_left
    rw [inactiveDiag]
    exact StrInfix.append_right _ _ _ (StrInfix.append_left _ _ _ hj)

/-- Witness for C2 at a concrete group where no member is running. -/
theorem C2_witness :
    ¬(("g1" : String) = "")
    ∧ groupMembers [⟨"r1", .TARGET, some ⟨"g1"⟩⟩, ⟨"r2", .VIP, some ⟨"g1"⟩⟩] "g1" ≠ []
    ∧ ∃ e, getGroupActiveNode ⟨fun _ => .ok none, .ok "", fun _ _ => none⟩
        [⟨"r1", .TARGET, some ⟨"g1"⟩⟩, ⟨"r2", .VIP, some ⟨"g1"⟩⟩] "g1" = .error e
      ∧ StrInfix "appears inactive" e.message
      ∧ StrInfix "g1" e.message
      ∧ ∀ r ∈ groupMembers [⟨"r1", .TARGET, some ⟨"g1"⟩⟩, ⟨"r2", .VIP, some ⟨"g1"⟩⟩] "g1",
          StrInfix (r.name ++ "->NOT RUNNING") e.message :=
  ⟨by decide, by decide,
   C2_inactive_group_diagnostic ⟨fun _ => .ok none, .ok "", fun _ _ => none⟩
     [⟨"r1", .TARGET, some ⟨"g1"⟩⟩, ⟨"r2", .VIP, some ⟨"g1"⟩⟩] "g1" ""
     (by decide) (by decide) (fun r _ => rfl) rfl rfl⟩
